import Mathlib

/-!
Verification of the two maintenance scripts of the water-cooler repository:
`scripts/reset_dependencies.py` (dependency repair) and
`scripts/finalize_merge.py` (merge-finalization orchestrator).

The scripts are sequential shell orchestration over the filesystem and a
JSON manifest.  We embed them shallowly: Python dicts become association
lists (preserving insertion-order semantics of `dict.setdefault` and item
assignment), the filesystem and the results of external commands become an
explicit world record, and each script's side effects become a pure
function from a world to a new world together with a trace of events.
-/

namespace WaterCooler

/-! ### Association lists modelling Python `dict`

Python dict semantics needed by the scripts:
* lookup returns the value of the (unique) matching key;
* item assignment `d[k] = v` updates in place when the key is present and
  appends the pair at the end otherwise;
* `d.setdefault(k, default)` leaves the dict unchanged when `k` is present
  and appends `(k, default)` otherwise.
-/

def alookup {α : Type} : List (String × α) → String → Option α
  | [], _ => none
  | (k', v) :: rest, k => if k' = k then some v else alookup rest k

def aset {α : Type} : List (String × α) → String → α → List (String × α)
  | [], k, v => [(k, v)]
  | (k', v') :: rest, k, v =>
      if k' = k then (k, v) :: rest else (k', v') :: aset rest k v

/-- A dependency section of the manifest: dependency name ↦ version string. -/
abbrev Deps := List (String × String)

/-- The `package.json` manifest: section name ↦ dependency section. -/
abbrev Manifest := List (String × Deps)

/-- `manifest.setdefault(sec, {})`: insert an empty section if absent. -/
def setdefaultSection (m : Manifest) (sec : String) : Manifest :=
  match alookup m sec with
  | some _ => m
  | none => m ++ [(sec, [])]

/-- The dependency section stored under `sec` (empty if absent). -/
def getSection (m : Manifest) (sec : String) : Deps :=
  (alookup m sec).getD []

/-- Python's `str.strip()` whitespace test: space, tab, newline, carriage
return, vertical tab, form feed. -/
def isPySpace (c : Char) : Bool :=
  c = ' ' || c = '\t' || c = '\n' || c = '\r' || c = '\x0b' || c = '\x0c'

def dropWhileSpace : List Char → List Char
  | [] => []
  | c :: rest => if isPySpace c then dropWhileSpace rest else c :: rest

/-- Python's `str.strip()`: remove leading and trailing whitespace.
(Defined by structural recursion so that concrete runs evaluate; the
built-in `String.trim` is well-founded-recursive and does not reduce.) -/
def pyStrip (s : String) : String :=
  ⟨(dropWhileSpace (dropWhileSpace s.data).reverse).reverse⟩

/-! ### `latest_version` (reset_dependencies.py, lines 94-114)

`npm view wrangler version` is an external command; we model its outcome as
`Option String`: `none` when the executable is missing or the command exits
non-zero (both raise and are turned into `RuntimeError`), `some out` when it
succeeds with stdout `out`.  The function strips the output and treats an
empty result as a failure (`RuntimeError`), so the model returns `none`
exactly when `upgrade_wrangler`'s `except RuntimeError` branch fires. -/
def latest_version (registryStdout : Option String) : Option String :=
  match registryStdout with
  | none => none
  | some out =>
      let version := pyStrip out
      if version = "" then none else some version

/-- Result of `upgrade_wrangler`: the in-memory manifest after the call and
the returned `changed` flag (the manifest file is rewritten iff `changed`). -/
structure UpgradeOutcome where
  mem : Manifest
  changed : Bool
  deriving Repr, DecidableEq

/-- The `for section in ("devDependencies", "dependencies")` loop of
`upgrade_wrangler` (lines 126-139), with Python's `for`/`else`: the `[]`
case is the `else` clause that inserts wrangler into `devDependencies`.
Each iteration first runs `manifest.setdefault(section, {})`. -/
def upgradeLoop (desired : String) : Manifest → List String → Manifest × Bool
  | m, [] =>
      let m1 := setdefaultSection m "devDependencies"
      let deps := getSection m1 "devDependencies"
      (aset m1 "devDependencies" (aset deps "wrangler" desired), true)
  | m, sec :: rest =>
      let m1 := setdefaultSection m sec
      let deps := getSection m1 sec
      match alookup deps "wrangler" with
      | some v =>
          if v ≠ desired then
            (aset m1 sec (aset deps "wrangler" desired), true)
          else
            (m1, false)
      | none => upgradeLoop desired m1 rest

/-- Line 123: `desired = f"^{new_version}" if caret else new_version`. -/
def desiredVersion (caret : Bool) (newVersion : String) : String :=
  if caret then "^" ++ newVersion else newVersion

/-- `upgrade_wrangler` (lines 117-143).  `latest` is the outcome of
`latest_version "wrangler"`; on `none` the upgrade is skipped and the function
returns `False` without touching the manifest. -/
def upgrade_wrangler (m : Manifest) (latest : Option String) (caret : Bool) :
    UpgradeOutcome :=
  match latest with
  | none => ⟨m, false⟩
  | some newVersion =>
      let desired := desiredVersion caret newVersion
      let r := upgradeLoop desired m ["devDependencies", "dependencies"]
      ⟨r.1, r.2⟩

/-! ### The dependency-repair procedure (`reset_dependencies.py`, `main`)

Side effects are recorded as a trace of events, and the filesystem visible
to the script (node_modules, lockfiles, package.json, plus the outcomes of
the external commands it runs) is an explicit world record. -/

/-- Observable side effects of one run of the repair procedure. -/
inductive Event where
  | removedNodeModules
  | removedLockfile (name : String)
  | skippedLockfile (name : String)
  | savedManifest (m : Manifest)
  | installed (manager : String) (frozen : Bool)
  deriving Repr, DecidableEq

/-- The command-line flags of `reset_dependencies.py` (argparse, lines
166-200).  `manager` is one of "npm"/"pnpm"/"bun" when produced by argparse,
but `detect_lockfiles` and `install_dependencies` are defined on any string
as in the source. -/
structure Flags where
  manager : String
  skip_install : Bool
  keep_node_modules : Bool
  exact : Bool
  frozen_lock : Bool
  deriving Repr, DecidableEq

/-- The world the repair procedure acts on.  `registryStdout` is the stdout
of `npm view wrangler version` (`none` when the command fails or npm is
missing); `installOk` is whether the package manager's install command
succeeds when invoked. -/
structure DepWorld where
  nodeModules : Bool
  lockfiles : List String
  manifestFile : Option Manifest
  registryStdout : Option String
  installOk : Bool
  deriving Repr, DecidableEq

/-- `remove_node_modules` (lines 60-78): delete the directory when present
(modelling a successful `shutil.rmtree`), otherwise report and skip. -/
def remove_node_modules (w : DepWorld) : DepWorld × List Event :=
  if w.nodeModules then
    ({ w with nodeModules := false }, [Event.removedNodeModules])
  else
    (w, [])

/-- `detect_lockfiles` (lines 41-47): fixed manager → lockfile-name table;
unknown managers map to the empty set (`mapping.get(manager, set())`). -/
def detect_lockfiles (manager : String) : List String :=
  if manager = "npm" then ["package-lock.json"]
  else if manager = "pnpm" then ["package-lock.json", "pnpm-lock.yaml"]
  else if manager = "bun" then ["package-lock.json", "bun.lockb", "bun.lock"]
  else []

/-- The loop body of `remove_lockfiles` (lines 50-57): for each lockfile of
the table, unlink it when present (reporting "removed"), otherwise report
"skipped (not found)".  Returns the remaining files and the trace. -/
def removeLockfilesGo : List String → List String → List String × List Event
  | [], present => (present, [])
  | n :: rest, present =>
      if n ∈ present then
        let r := removeLockfilesGo rest (present.erase n)
        (r.1, Event.removedLockfile n :: r.2)
      else
        let r := removeLockfilesGo rest present
        (r.1, Event.skippedLockfile n :: r.2)

/-- `remove_lockfiles` (lines 50-57). -/
def remove_lockfiles (manager : String) (present : List String) :
    List String × List Event :=
  removeLockfilesGo (detect_lockfiles manager) present

/-- `install_dependencies` (lines 146-163): the command run for each
manager, `none` for the unsupported-manager fatal branch.  `--frozen-lock`
maps to `--package-lock-only` (npm) / `--lockfile-only` (pnpm) and is
ignored for bun. -/
def install_cmd (manager : String) (frozen : Bool) : Option (List String) :=
  if manager = "npm" then
    some (["npm", "install"] ++ if frozen then ["--package-lock-only"] else [])
  else if manager = "pnpm" then
    some (["pnpm", "install"] ++ if frozen then ["--lockfile-only"] else [])
  else if manager = "bun" then
    some ["bun", "install"]
  else none

/-- Result of one run of the repair procedure: final world, event trace,
and `some message` when the run terminated via `sys.exit(message)`. -/
structure DepResult where
  world : DepWorld
  trace : List Event
  fatal : Option String
  deriving Repr, DecidableEq

/-- `main` of `reset_dependencies.py` (lines 203-224):
load the manifest (fatal if absent); delete node_modules unless
`--keep-node-modules` or `--frozen-lock`; delete the manager's lockfiles;
upgrade wrangler (persisting the manifest iff it changed); then install
unless `--skip-install`. -/
def reset_main (args : Flags) (w : DepWorld) : DepResult :=
  match w.manifestFile with
  | none => ⟨w, [], some "package.json not found"⟩
  | some manifest =>
      let s1 :=
        if !args.keep_node_modules && !args.frozen_lock then
          remove_node_modules w
        else (w, [])
      let s2 := remove_lockfiles args.manager s1.1.lockfiles
      let w2 : DepWorld := { s1.1 with lockfiles := s2.1 }
      let up := upgrade_wrangler manifest (latest_version w.registryStdout)
        (!args.exact)
      let s3 : DepWorld × List Event :=
        if up.changed then
          ({ w2 with manifestFile := some up.mem },
            [Event.savedManifest up.mem])
        else (w2, [])
      if args.skip_install then
        ⟨s3.1, s1.2 ++ s2.2 ++ s3.2, none⟩
      else
        match install_cmd args.manager args.frozen_lock with
        | none => ⟨s3.1, s1.2 ++ s2.2 ++ s3.2,
            some ("Unsupported package manager: " ++ args.manager)⟩
        | some _ =>
            ⟨s3.1,
              s1.2 ++ s2.2 ++ s3.2
                ++ [Event.installed args.manager args.frozen_lock],
              if w.installOk then none else some "install command failed"⟩

/-! ### The merge-finalization orchestrator (`finalize_merge.py`) -/

/-- The slice of the filesystem `ensure_public_assets` touches: whether the
`public` directory exists, and the content of `public/index.html` (`none`
when the file is absent). -/
structure FS where
  publicDirExists : Bool
  indexFileContent : Option String
  deriving Repr, DecidableEq

/-- The fixed minimal placeholder content written to `public/index.html`. -/
def placeholderHtml : String :=
  "<!doctype html><html><head><meta charset='utf-8'><title>Water Cooler</title></head>"
    ++ "<body><p>Placeholder assets for local tests.</p></body></html>"

/-- `ensure_public_assets` (finalize_merge.py, lines 111-124): return at
once when `public` exists; otherwise create it and write the placeholder
index file when that file is absent. -/
def ensure_public_assets (fs : FS) : FS :=
  if fs.publicDirExists then fs
  else
    let fs1 : FS := { fs with publicDirExists := true }
    match fs1.indexFileContent with
    | some _ => fs1
    | none => { fs1 with indexFileContent := some placeholderHtml }

/-- Observable actions of one orchestrator run. -/
inductive OEvent where
  | ranStep (name : String)
  | pushAttempted (branch : String)
  | prViewQueried (branch : String)
  | prCreateAttempted (branch : String) (base : String)
  | printedSkipPush
  deriving Repr, DecidableEq

/-- The world the orchestrator acts on: availability and outcomes of the
external tools it invokes.  `statusOut` is the stdout of
`git status --porcelain` read after the staging step; `defaultBranch` is
the result of `get_default_branch` (`none` on command failure or
unparsable JSON). -/
structure GitWorld where
  bunOnPath : Bool
  resetExit : Option Nat
  testExit : Option Nat
  stageExit : Option Nat
  branch : String
  statusOut : String
  pushOk : Bool
  ghOnPath : Bool
  ghVersionOk : Bool
  prViewOk : Bool
  defaultBranch : Option String
  fs : FS
  deriving Repr, DecidableEq

/-- `working_tree_clean` (lines 78-86): stripped porcelain output empty. -/
def working_tree_clean (w : GitWorld) : Bool :=
  pyStrip w.statusOut = ""

/-- `ensure_pr` (lines 162-190): skip when gh is missing or
`gh --version` fails; otherwise query for an existing PR; when none exists,
create one against the default branch, falling back to "main". -/
def ensure_pr (w : GitWorld) (branch : String) : List OEvent :=
  if !w.ghOnPath then []
  else if !w.ghVersionOk then []
  else if w.prViewOk then [OEvent.prViewQueried branch]
  else
    let base := w.defaultBranch.getD "main"
    [OEvent.prViewQueried branch, OEvent.prCreateAttempted branch base]

/-- Result of one orchestrator run: trace, process exit code, final
filesystem slice. -/
structure ORun where
  events : List OEvent
  exitCode : Nat
  fs : FS
  deriving Repr, DecidableEq

/-- `main` of `finalize_merge.py` (lines 193-237): require bun; run the
reset, test and stage steps fatally; then, when the working tree is clean,
attempt the push and, if it succeeded, the PR reconciliation; otherwise
print that push is skipped.  Always ends by printing manual next steps and
returning normally (exit code 0). -/
def finalize_main (w : GitWorld) : ORun :=
  if !w.bunOnPath then ⟨[], 1, w.fs⟩
  else
    match w.resetExit with
    | some c => ⟨[OEvent.ranStep "Reset/install dependencies"], c, w.fs⟩
    | none =>
        let fs1 := ensure_public_assets w.fs
        let t1 := [OEvent.ranStep "Reset/install dependencies"]
        match w.testExit with
        | some c => ⟨t1 ++ [OEvent.ranStep "Run Vitest smoke tests"], c, fs1⟩
        | none =>
            let t2 := t1 ++ [OEvent.ranStep "Run Vitest smoke tests"]
            match w.stageExit with
            | some c => ⟨t2 ++ [OEvent.ranStep "Stage resolved files"], c, fs1⟩
            | none =>
                let t3 := t2 ++ [OEvent.ranStep "Stage resolved files"]
                if working_tree_clean w then
                  if w.pushOk then
                    ⟨t3 ++ [OEvent.pushAttempted w.branch]
                      ++ ensure_pr w w.branch, 0, fs1⟩
                  else
                    ⟨t3 ++ [OEvent.pushAttempted w.branch], 0, fs1⟩
                else
                  ⟨t3 ++ [OEvent.printedSkipPush], 0, fs1⟩

/-! ### Lemmas about the association-list operations -/

theorem alookup_nil {α : Type} (k : String) :
    alookup ([] : List (String × α)) k = none := rfl

theorem alookup_cons {α : Type} (a : String) (b : α)
    (rest : List (String × α)) (k : String) :
    alookup ((a, b) :: rest) k = if a = k then some b else alookup rest k :=
  rfl

theorem alookup_aset_self {α : Type} (l : List (String × α)) (k : String)
    (v : α) : alookup (aset l k v) k = some v := by
  induction l with
  | nil => simp [aset, alookup]
  | cons p rest ih =>
      obtain ⟨k', v'⟩ := p
      by_cases h : k' = k
      · simp [aset, alookup, h]
      · simp [aset, alookup, h, ih]

theorem alookup_aset_ne {α : Type} (l : List (String × α)) (k k' : String)
    (v : α) (h : k' ≠ k) : alookup (aset l k v) k' = alookup l k' := by
  induction l with
  | nil => simp [aset, alookup, Ne.symm h]
  | cons p rest ih =>
      obtain ⟨a, b⟩ := p
      by_cases ha : a = k
      · subst ha
        simp [aset, alookup, Ne.symm h]
      · simp [aset, alookup, ha, ih]

theorem alookup_append_of_none {α : Type} (l1 l2 : List (String × α))
    (k : String) (h : alookup l1 k = none) :
    alookup (l1 ++ l2) k = alookup l2 k := by
  induction l1 with
  | nil => simp
  | cons p rest ih =>
      obtain ⟨a, b⟩ := p
      by_cases ha : a = k
      · rw [alookup_cons, if_pos ha] at h
        exact absurd h (by simp)
      · rw [alookup_cons, if_neg ha] at h
        rw [List.cons_append, alookup_cons, if_neg ha]
        exact ih h

theorem alookup_append_of_some {α : Type} (l1 l2 : List (String × α))
    (k : String) (v : α) (h : alookup l1 k = some v) :
    alookup (l1 ++ l2) k = some v := by
  induction l1 with
  | nil => exact absurd h (by simp [alookup_nil])
  | cons p rest ih =>
      obtain ⟨a, b⟩ := p
      by_cases ha : a = k
      · rw [alookup_cons, if_pos ha] at h
        rw [List.cons_append, alookup_cons, if_pos ha]
        exact h
      · rw [alookup_cons, if_neg ha] at h
        rw [List.cons_append, alookup_cons, if_neg ha]
        exact ih h

theorem alookup_setdefaultSection_self (m : Manifest) (sec : String) :
    alookup (setdefaultSection m sec) sec = some (getSection m sec) := by
  unfold setdefaultSection getSection
  cases h : alookup m sec with
  | some d => simp [h]
  | none =>
      rw [alookup_append_of_none _ _ _ h]
      simp [alookup]

theorem alookup_setdefaultSection_ne (m : Manifest) (sec s : String)
    (h : s ≠ sec) : alookup (setdefaultSection m sec) s = alookup m s := by
  unfold setdefaultSection
  cases hm : alookup m sec with
  | some d => rfl
  | none =>
      cases hs : alookup m s with
      | some v => exact alookup_append_of_some _ _ _ _ hs
      | none =>
          rw [alookup_append_of_none _ _ _ hs]
          simp [alookup, Ne.symm h]

theorem getSection_setdefaultSection_self (m : Manifest) (sec : String) :
    getSection (setdefaultSection m sec) sec = getSection m sec := by
  unfold getSection
  rw [alookup_setdefaultSection_self]
  rfl

theorem getSection_setdefaultSection_ne (m : Manifest) (sec s : String)
    (h : s ≠ sec) :
    getSection (setdefaultSection m sec) s = getSection m s := by
  unfold getSection
  rw [alookup_setdefaultSection_ne _ _ _ h]

theorem getSection_aset_self (m : Manifest) (sec : String) (d : Deps) :
    getSection (aset m sec d) sec = d := by
  unfold getSection
  rw [alookup_aset_self]
  rfl

theorem getSection_aset_ne (m : Manifest) (sec s : String) (d : Deps)
    (h : s ≠ sec) : getSection (aset m sec d) s = getSection m s := by
  unfold getSection
  rw [alookup_aset_ne _ _ _ _ h]

theorem setdefaultSection_of_mem (m : Manifest) (sec : String)
    (h : (alookup m sec).isSome) : setdefaultSection m sec = m := by
  unfold setdefaultSection
  cases hm : alookup m sec with
  | some d => rfl
  | none => rw [hm] at h; simp at h

theorem alookup_aset_isSome {α : Type} (l : List (String × α))
    (k s : String) (v : α) (h : (alookup l s).isSome) :
    (alookup (aset l k v) s).isSome := by
  by_cases hs : s = k
  · subst hs; rw [alookup_aset_self]; rfl
  · rw [alookup_aset_ne _ _ _ _ hs]; exact h

theorem alookup_setdefaultSection_isSome (m : Manifest) (sec s : String)
    (h : (alookup m s).isSome) :
    (alookup (setdefaultSection m sec) s).isSome := by
  by_cases hs : s = sec
  · subst hs; rw [alookup_setdefaultSection_self]; rfl
  · rw [alookup_setdefaultSection_ne _ _ _ hs]; exact h

theorem alookup_aset_isSome_rev {α : Type} (l : List (String × α))
    (k s : String) (v : α) (h : (alookup (aset l k v) s).isSome) :
    (alookup l s).isSome ∨ s = k := by
  by_cases hs : s = k
  · exact Or.inr hs
  · rw [alookup_aset_ne _ _ _ _ hs] at h
    exact Or.inl h

theorem alookup_setdefaultSection_isSome_rev (m : Manifest) (sec s : String)
    (h : (alookup (setdefaultSection m sec) s).isSome) :
    (alookup m s).isSome ∨ s = sec := by
  by_cases hs : s = sec
  · exact Or.inr hs
  · rw [alookup_setdefaultSection_ne _ _ _ hs] at h
    exact Or.inl h

/-! ### Characterization of `upgrade_wrangler` by branch -/

theorem upgrade_wrangler_none (m : Manifest) (caret : Bool) :
    upgrade_wrangler m none caret = ⟨m, false⟩ := rfl

theorem upgrade_wrangler_dev_eq (m : Manifest) (nv : String) (caret : Bool)
    (h : alookup (getSection m "devDependencies") "wrangler"
      = some (desiredVersion caret nv)) :
    upgrade_wrangler m (some nv) caret
      = ⟨setdefaultSection m "devDependencies", false⟩ := by
  simp only [upgrade_wrangler, upgradeLoop,
    getSection_setdefaultSection_self, h]
  simp

theorem upgrade_wrangler_dev_ne (m : Manifest) (nv : String) (caret : Bool)
    (v : String)
    (h : alookup (getSection m "devDependencies") "wrangler" = some v)
    (hne : v ≠ desiredVersion caret nv) :
    upgrade_wrangler m (some nv) caret
      = ⟨aset (setdefaultSection m "devDependencies") "devDependencies"
            (aset (getSection m "devDependencies") "wrangler"
              (desiredVersion caret nv)), true⟩ := by
  simp only [upgrade_wrangler, upgradeLoop,
    getSection_setdefaultSection_self, h]
  simp [hne]

theorem upgrade_wrangler_dep_eq (m : Manifest) (nv : String) (caret : Bool)
    (h0 : alookup (getSection m "devDependencies") "wrangler" = none)
    (h : alookup (getSection m "dependencies") "wrangler"
      = some (desiredVersion caret nv)) :
    upgrade_wrangler m (some nv) caret
      = ⟨setdefaultSection (setdefaultSection m "devDependencies")
          "dependencies", false⟩ := by
  have hdep : getSection (setdefaultSection m "devDependencies")
      "dependencies" = getSection m "dependencies" :=
    getSection_setdefaultSection_ne _ _ _ (by decide)
  simp only [upgrade_wrangler, upgradeLoop,
    getSection_setdefaultSection_self, h0, hdep, h]
  simp

theorem upgrade_wrangler_dep_ne (m : Manifest) (nv : String) (caret : Bool)
    (v : String)
    (h0 : alookup (getSection m "devDependencies") "wrangler" = none)
    (h : alookup (getSection m "dependencies") "wrangler" = some v)
    (hne : v ≠ desiredVersion caret nv) :
    upgrade_wrangler m (some nv) caret
      = ⟨aset (setdefaultSection (setdefaultSection m "devDependencies")
            "dependencies") "dependencies"
          (aset (getSection m "dependencies") "wrangler"
            (desiredVersion caret nv)), true⟩ := by
  have hdep : getSection (setdefaultSection m "devDependencies")
      "dependencies" = getSection m "dependencies" :=
    getSection_setdefaultSection_ne _ _ _ (by decide)
  simp only [upgrade_wrangler, upgradeLoop,
    getSection_setdefaultSection_self, h0, hdep, h]
  simp [hne]

theorem upgrade_wrangler_absent (m : Manifest) (nv : String) (caret : Bool)
    (h0 : alookup (getSection m "devDependencies") "wrangler" = none)
    (h1 : alookup (getSection m "dependencies") "wrangler" = none) :
    upgrade_wrangler m (some nv) caret
      = ⟨aset (setdefaultSection (setdefaultSection m "devDependencies")
            "dependencies") "devDependencies"
          (aset (getSection m "devDependencies") "wrangler"
            (desiredVersion caret nv)), true⟩ := by
  have hdep : getSection (setdefaultSection m "devDependencies")
      "dependencies" = getSection m "dependencies" :=
    getSection_setdefaultSection_ne _ _ _ (by decide)
  have hdev2 : getSection (setdefaultSection (setdefaultSection m
      "devDependencies") "dependencies") "devDependencies"
      = getSection m "devDependencies" := by
    rw [getSection_setdefaultSection_ne _ _ _ (by decide),
      getSection_setdefaultSection_self]
  have hmem : setdefaultSection (setdefaultSection (setdefaultSection m
      "devDependencies") "dependencies") "devDependencies"
      = setdefaultSection (setdefaultSection m "devDependencies")
          "dependencies" := by
    apply setdefaultSection_of_mem
    rw [alookup_setdefaultSection_ne _ _ _ (by decide),
      alookup_setdefaultSection_self]
    rfl
  simp only [upgrade_wrangler, upgradeLoop,
    getSection_setdefaultSection_self, h0, hdep, h1, hmem, hdev2]

/-! ### Frame properties of `upgrade_wrangler`

The manifests reachable inside `upgrade_wrangler` are the loaded manifest
with zero, one or two `setdefault`ed sections, possibly followed by one
`aset` that rewrites the wrangler entry of one of the two sections.  The
next lemmas capture what such shapes preserve. -/

theorem getSection_setdefault2 (m : Manifest) (s : String) :
    getSection (setdefaultSection (setdefaultSection m "devDependencies")
      "dependencies") s = getSection m s := by
  by_cases h1 : s = "dependencies"
  · subst h1
    rw [getSection_setdefaultSection_self,
      getSection_setdefaultSection_ne _ _ _ (by decide)]
  · rw [getSection_setdefaultSection_ne _ _ _ h1]
    by_cases h2 : s = "devDependencies"
    · subst h2; rw [getSection_setdefaultSection_self]
    · rw [getSection_setdefaultSection_ne _ _ _ h2]

theorem getSection_setdefault1 (m : Manifest) (s : String) :
    getSection (setdefaultSection m "devDependencies") s
      = getSection m s := by
  by_cases h : s = "devDependencies"
  · subst h; rw [getSection_setdefaultSection_self]
  · rw [getSection_setdefaultSection_ne _ _ _ h]

/-- Frame facts for a manifest of shape `aset M sec (aset (getSection m sec)
"wrangler" dstr)` where `M` agrees with `m` on sections and `sec` is one of
the two dependency sections. -/
theorem frame_aset (m M : Manifest) (sec dstr : String)
    (hg : ∀ s, getSection M s = getSection m s)
    (ha : ∀ s, s ≠ "devDependencies" → s ≠ "dependencies" →
      alookup M s = alookup m s)
    (hi : ∀ s, (alookup m s).isSome → (alookup M s).isSome)
    (hr : ∀ s, (alookup M s).isSome →
      (alookup m s).isSome ∨ s = "devDependencies" ∨ s = "dependencies")
    (hsec : sec = "devDependencies" ∨ sec = "dependencies") :
    (∀ s, s ≠ "devDependencies" → s ≠ "dependencies" →
      alookup (aset M sec (aset (getSection m sec) "wrangler" dstr)) s
        = alookup m s) ∧
    (∀ s k, k ≠ "wrangler" →
      alookup (getSection
        (aset M sec (aset (getSection m sec) "wrangler" dstr)) s) k
        = alookup (getSection m s) k) ∧
    (∀ s, (alookup m s).isSome →
      (alookup (aset M sec (aset (getSection m sec) "wrangler" dstr))
        s).isSome) ∧
    (∀ s, (alookup (aset M sec (aset (getSection m sec) "wrangler" dstr))
        s).isSome →
      (alookup m s).isSome ∨ s = "devDependencies" ∨ s = "dependencies") ∧
    (∀ s, alookup (getSection
        (aset M sec (aset (getSection m sec) "wrangler" dstr)) s) "wrangler"
        ≠ alookup (getSection m s) "wrangler" → s = sec) := by
  refine ⟨?_, ?_, ?_, ?_, ?_⟩
  · intro s hs1 hs2
    have hssec : s ≠ sec := by
      rcases hsec with h | h <;> rw [h] <;> assumption
    rw [alookup_aset_ne _ _ _ _ hssec]
    exact ha s hs1 hs2
  · intro s k hk
    by_cases hs : s = sec
    · subst hs
      rw [getSection_aset_self, alookup_aset_ne _ _ _ _ hk]
    · rw [getSection_aset_ne _ _ _ _ hs, hg]
  · intro s h
    exact alookup_aset_isSome _ _ _ _ (hi s h)
  · intro s h
    rcases alookup_aset_isSome_rev _ _ _ _ h with h' | rfl
    · exact hr s h'
    · exact Or.inr hsec
  · intro s hch
    by_cases hs : s = sec
    · exact hs
    · exfalso
      apply hch
      rw [getSection_aset_ne _ _ _ _ hs, hg]

/-- Frame facts for a manifest that only `setdefault`ed sections of `m`. -/
theorem frame_noop (m M : Manifest)
    (hg : ∀ s, getSection M s = getSection m s)
    (ha : ∀ s, s ≠ "devDependencies" → s ≠ "dependencies" →
      alookup M s = alookup m s)
    (hi : ∀ s, (alookup m s).isSome → (alookup M s).isSome)
    (hr : ∀ s, (alookup M s).isSome →
      (alookup m s).isSome ∨ s = "devDependencies" ∨ s = "dependencies") :
    (∀ s, s ≠ "devDependencies" → s ≠ "dependencies" →
      alookup M s = alookup m s) ∧
    (∀ s k, k ≠ "wrangler" →
      alookup (getSection M s) k = alookup (getSection m s) k) ∧
    (∀ s, (alookup m s).isSome → (alookup M s).isSome) ∧
    (∀ s, (alookup M s).isSome →
      (alookup m s).isSome ∨ s = "devDependencies" ∨ s = "dependencies") ∧
    (∀ s, alookup (getSection M s) "wrangler"
        ≠ alookup (getSection m s) "wrangler" → False) := by
  refine ⟨ha, ?_, hi, hr, ?_⟩
  · intro s k _
    rw [hg]
  · intro s hch
    exact hch (by rw [hg])

theorem setdefault1_props (m : Manifest) :
    (∀ s, s ≠ "devDependencies" → s ≠ "dependencies" →
      alookup (setdefaultSection m "devDependencies") s = alookup m s) ∧
    (∀ s, (alookup m s).isSome →
      (alookup (setdefaultSection m "devDependencies") s).isSome) ∧
    (∀ s, (alookup (setdefaultSection m "devDependencies") s).isSome →
      (alookup m s).isSome ∨ s = "devDependencies" ∨ s = "dependencies") := by
  refine ⟨?_, ?_, ?_⟩
  · intro s hs1 _
    exact alookup_setdefaultSection_ne _ _ _ hs1
  · intro s h
    exact alookup_setdefaultSection_isSome _ _ _ h
  · intro s h
    rcases alookup_setdefaultSection_isSome_rev _ _ _ h with h' | rfl
    · exact Or.inl h'
    · exact Or.inr (Or.inl rfl)

theorem setdefault2_props (m : Manifest) :
    (∀ s, s ≠ "devDependencies" → s ≠ "dependencies" →
      alookup (setdefaultSection (setdefaultSection m "devDependencies")
        "dependencies") s = alookup m s) ∧
    (∀ s, (alookup m s).isSome →
      (alookup (setdefaultSection (setdefaultSection m "devDependencies")
        "dependencies") s).isSome) ∧
    (∀ s, (alookup (setdefaultSection (setdefaultSection m "devDependencies")
        "dependencies") s).isSome →
      (alookup m s).isSome ∨ s = "devDependencies" ∨ s = "dependencies") := by
  obtain ⟨h1, h2, h3⟩ := setdefault1_props m
  refine ⟨?_, ?_, ?_⟩
  · intro s hs1 hs2
    rw [alookup_setdefaultSection_ne _ _ _ hs2]
    exact h1 s hs1 hs2
  · intro s h
    exact alookup_setdefaultSection_isSome _ _ _ (h2 s h)
  · intro s h
    rcases alookup_setdefaultSection_isSome_rev _ _ _ h with h' | rfl
    · exact h3 s h'
    · exact Or.inr (Or.inr rfl)

/-- Master frame fact: whatever branch `upgrade_wrangler` takes, sections
other than the two dependency sections keep their bindings, every
dependency entry other than wrangler keeps its value, no section is
removed, only the two dependency sections can appear, and the wrangler
entry changes in at most one section. -/
theorem upgrade_wrangler_frame (m : Manifest) (latest : Option String)
    (caret : Bool) :
    (∀ s, s ≠ "devDependencies" → s ≠ "dependencies" →
      alookup (upgrade_wrangler m latest caret).mem s = alookup m s) ∧
    (∀ s k, k ≠ "wrangler" →
      alookup (getSection (upgrade_wrangler m latest caret).mem s) k
        = alookup (getSection m s) k) ∧
    (∀ s, (alookup m s).isSome →
      (alookup (upgrade_wrangler m latest caret).mem s).isSome) ∧
    (∀ s, (alookup (upgrade_wrangler m latest caret).mem s).isSome →
      (alookup m s).isSome ∨ s = "devDependencies" ∨ s = "dependencies") ∧
    (∀ s1 s2,
      alookup (getSection (upgrade_wrangler m latest caret).mem s1) "wrangler"
          ≠ alookup (getSection m s1) "wrangler" →
      alookup (getSection (upgrade_wrangler m latest caret).mem s2) "wrangler"
          ≠ alookup (getSection m s2) "wrangler" → s1 = s2) := by
  cases latest with
  | none =>
      obtain ⟨hA, hB, hC, hD, hE⟩ := frame_noop m m (fun _ => rfl)
        (fun _ _ _ => rfl) (fun _ h => h) (fun _ h => Or.inl h)
      rw [upgrade_wrangler_none]
      exact ⟨hA, hB, hC, hD, fun s1 s2 c1 _ => (hE s1 c1).elim⟩
  | some nv =>
      cases h0 : alookup (getSection m "devDependencies") "wrangler" with
      | some v =>
          by_cases hv : v = desiredVersion caret nv
          · subst hv
            rw [upgrade_wrangler_dev_eq m nv caret h0]
            obtain ⟨ha, hi, hr⟩ := setdefault1_props m
            obtain ⟨hA, hB, hC, hD, hE⟩ :=
              frame_noop m _ (getSection_setdefault1 m) ha hi hr
            exact ⟨hA, hB, hC, hD, fun s1 s2 c1 _ => (hE s1 c1).elim⟩
          · rw [upgrade_wrangler_dev_ne m nv caret v h0 hv]
            obtain ⟨ha, hi, hr⟩ := setdefault1_props m
            obtain ⟨hA, hB, hC, hD, hE⟩ :=
              frame_aset m _ "devDependencies" (desiredVersion caret nv)
                (getSection_setdefault1 m) ha hi hr (Or.inl rfl)
            exact ⟨hA, hB, hC, hD,
              fun s1 s2 c1 c2 => (hE s1 c1).trans (hE s2 c2).symm⟩
      | none =>
          cases h1 : alookup (getSection m "dependencies") "wrangler" with
          | some v =>
              by_cases hv : v = desiredVersion caret nv
              · subst hv
                rw [upgrade_wrangler_dep_eq m nv caret h0 h1]
                obtain ⟨ha, hi, hr⟩ := setdefault2_props m
                obtain ⟨hA, hB, hC, hD, hE⟩ :=
                  frame_noop m _ (getSection_setdefault2 m) ha hi hr
                exact ⟨hA, hB, hC, hD, fun s1 s2 c1 _ => (hE s1 c1).elim⟩
              · rw [upgrade_wrangler_dep_ne m nv caret v h0 h1 hv]
                obtain ⟨ha, hi, hr⟩ := setdefault2_props m
                obtain ⟨hA, hB, hC, hD, hE⟩ :=
                  frame_aset m _ "dependencies" (desiredVersion caret nv)
                    (getSection_setdefault2 m) ha hi hr (Or.inr rfl)
                exact ⟨hA, hB, hC, hD,
                  fun s1 s2 c1 c2 => (hE s1 c1).trans (hE s2 c2).symm⟩
          | none =>
              rw [upgrade_wrangler_absent m nv caret h0 h1]
              obtain ⟨ha, hi, hr⟩ := setdefault2_props m
              obtain ⟨hA, hB, hC, hD, hE⟩ :=
                frame_aset m _ "devDependencies" (desiredVersion caret nv)
                  (getSection_setdefault2 m) ha hi hr (Or.inl rfl)
              exact ⟨hA, hB, hC, hD,
                fun s1 s2 c1 c2 => (hE s1 c1).trans (hE s2 c2).symm⟩

/-! ### Lemmas about `remove_lockfiles` -/

theorem removeLockfilesGo_subset (names present : List String) :
    ∀ x, x ∈ (removeLockfilesGo names present).1 → x ∈ present := by
  induction names generalizing present with
  | nil => intro x hx; exact hx
  | cons n rest ih =>
      intro x hx
      by_cases hq : n ∈ present
      · simp only [removeLockfilesGo, if_pos hq] at hx
        exact List.mem_of_mem_erase (ih (present.erase n) x hx)
      · simp only [removeLockfilesGo, if_neg hq] at hx
        exact ih present x hx

theorem removeLockfilesGo_events (names present : List String) (e : Event)
    (he : e ∈ (removeLockfilesGo names present).2) :
    ∃ n, e = Event.removedLockfile n ∨ e = Event.skippedLockfile n := by
  induction names generalizing present with
  | nil => simp [removeLockfilesGo] at he
  | cons n rest ih =>
      by_cases hq : n ∈ present
      · simp only [removeLockfilesGo, if_pos hq, List.mem_cons] at he
        rcases he with rfl | he
        · exact ⟨n, Or.inl rfl⟩
        · exact ih (present.erase n) he
      · simp only [removeLockfilesGo, if_neg hq, List.mem_cons] at he
        rcases he with rfl | he
        · exact ⟨n, Or.inr rfl⟩
        · exact ih present he

theorem removeLockfilesGo_skipped_mem (names : List String)
    (name : String) (hn : name ∈ names) :
    ∀ present : List String, name ∉ present →
      Event.skippedLockfile name ∈ (removeLockfilesGo names present).2 := by
  induction names with
  | nil => simp at hn
  | cons n rest ih =>
      intro present hp
      rcases List.mem_cons.mp hn with rfl | hn'
      · simp only [removeLockfilesGo, if_neg hp]
        exact List.mem_cons_self _ _
      · by_cases hq : n ∈ present
        · simp only [removeLockfilesGo, if_pos hq]
          exact List.mem_cons_of_mem _ (ih hn' (present.erase n)
            (fun h => hp (List.mem_of_mem_erase h)))
        · simp only [removeLockfilesGo, if_neg hq]
          exact List.mem_cons_of_mem _ (ih hn' present hp)

theorem removeLockfilesGo_removed_not_mem (names : List String)
    (name : String) :
    ∀ present : List String, name ∉ present →
      Event.removedLockfile name ∉ (removeLockfilesGo names present).2 := by
  induction names with
  | nil => intro present _; simp [removeLockfilesGo]
  | cons n rest ih =>
      intro present hp hmem
      by_cases hq : n ∈ present
      · have hne : n ≠ name := fun h => hp (h ▸ hq)
        simp only [removeLockfilesGo, if_pos hq] at hmem
        rcases List.mem_cons.mp hmem with heq | hmem'
        · exact hne (Event.removedLockfile.inj heq.symm)
        · exact ih (present.erase n)
            (fun h => hp (List.mem_of_mem_erase h)) hmem'
      · simp only [removeLockfilesGo, if_neg hq] at hmem
        rcases List.mem_cons.mp hmem with heq | hmem'
        · exact Event.noConfusion heq
        · exact ih present hp hmem'

theorem removeLockfilesGo_missing (names present : List String)
    (name : String) (hn : name ∈ names) (hp : name ∉ present) :
    Event.skippedLockfile name ∈ (removeLockfilesGo names present).2 ∧
    Event.removedLockfile name ∉ (removeLockfilesGo names present).2 ∧
    name ∉ (removeLockfilesGo names present).1 :=
  ⟨removeLockfilesGo_skipped_mem names name hn present hp,
    removeLockfilesGo_removed_not_mem names name present hp,
    fun hx => hp (removeLockfilesGo_subset names present name hx)⟩

theorem removeLockfilesGo_present (names : List String) (name : String)
    (hn : name ∈ names) :
    ∀ present : List String, present.Nodup → name ∈ present →
      Event.removedLockfile name ∈ (removeLockfilesGo names present).2 ∧
      name ∉ (removeLockfilesGo names present).1 := by
  induction names with
  | nil => simp at hn
  | cons n rest ih =>
      intro present hnd hp
      rcases List.mem_cons.mp hn with rfl | hn'
      · simp only [removeLockfilesGo, if_pos hp]
        refine ⟨List.mem_cons_self _ _, fun hx => ?_⟩
        have hxe : name ∈ present.erase name :=
          removeLockfilesGo_subset rest (present.erase name) name hx
        exact (hnd.not_mem_erase) hxe
      · by_cases hq : n ∈ present
        · by_cases hne : name = n
          · subst hne
            simp only [removeLockfilesGo, if_pos hq]
            refine ⟨List.mem_cons_self _ _, fun hx => ?_⟩
            have hxe : name ∈ present.erase name :=
              removeLockfilesGo_subset rest (present.erase name) name hx
            exact (hnd.not_mem_erase) hxe
          · have hp' : name ∈ present.erase n :=
              (List.mem_erase_of_ne hne).mpr hp
            obtain ⟨he, hf⟩ := ih hn' (present.erase n) (hnd.erase n) hp'
            simp only [removeLockfilesGo, if_pos hq]
            exact ⟨List.mem_cons_of_mem _ he, hf⟩
        · obtain ⟨he, hf⟩ := ih hn' present hnd hp
          simp only [removeLockfilesGo, if_neg hq]
          exact ⟨List.mem_cons_of_mem _ he, hf⟩

/-! ### Characterization of `reset_main` -/

theorem reset_main_world_nodeModules (args : Flags) (w : DepWorld)
    (m : Manifest) (hm : w.manifestFile = some m) :
    (reset_main args w).world.nodeModules =
      if !args.keep_node_modules && !args.frozen_lock then false
      else w.nodeModules := by
  simp only [reset_main, hm]
  by_cases hg : (!args.keep_node_modules && !args.frozen_lock) = true <;>
    by_cases hn : w.nodeModules = true <;>
      by_cases hch : (upgrade_wrangler m (latest_version w.registryStdout)
        (!args.exact)).changed = true <;>
        by_cases hs : args.skip_install = true <;>
          cases hc : install_cmd args.manager args.frozen_lock <;>
            simp [hg, hn, hch, hs, hc, remove_node_modules, remove_lockfiles]

theorem reset_main_world_manifestFile (args : Flags) (w : DepWorld)
    (m : Manifest) (hm : w.manifestFile = some m) :
    (reset_main args w).world.manifestFile =
      if (upgrade_wrangler m (latest_version w.registryStdout)
          (!args.exact)).changed then
        some (upgrade_wrangler m (latest_version w.registryStdout)
          (!args.exact)).mem
      else some m := by
  simp only [reset_main, hm]
  by_cases hg : (!args.keep_node_modules && !args.frozen_lock) = true <;>
    by_cases hn : w.nodeModules = true <;>
      by_cases hch : (upgrade_wrangler m (latest_version w.registryStdout)
        (!args.exact)).changed = true <;>
        by_cases hs : args.skip_install = true <;>
          cases hc : install_cmd args.manager args.frozen_lock <;>
            simp [hg, hn, hch, hs, hc, remove_node_modules, remove_lockfiles,
              hm]

theorem reset_main_trace (args : Flags) (w : DepWorld)
    (m : Manifest) (hm : w.manifestFile = some m) :
    ∃ tI : List Event,
      (reset_main args w).trace =
        (if !args.keep_node_modules && !args.frozen_lock && w.nodeModules
          then [Event.removedNodeModules] else [])
        ++ (remove_lockfiles args.manager w.lockfiles).2
        ++ (if (upgrade_wrangler m (latest_version w.registryStdout)
              (!args.exact)).changed
            then [Event.savedManifest (upgrade_wrangler m
              (latest_version w.registryStdout) (!args.exact)).mem]
            else [])
        ++ tI
      ∧ (tI = [] ∨ tI = [Event.installed args.manager args.frozen_lock])
      ∧ (args.skip_install = false →
          install_cmd args.manager args.frozen_lock ≠ none →
          tI = [Event.installed args.manager args.frozen_lock]) := by
  simp only [reset_main, hm]
  by_cases hs : args.skip_install = true
  · refine ⟨[], ?_, Or.inl rfl, fun hf _ => absurd hs (by simp [hf])⟩
    by_cases hg : (!args.keep_node_modules && !args.frozen_lock) = true <;>
      by_cases hn : w.nodeModules = true <;>
        by_cases hch : (upgrade_wrangler m (latest_version w.registryStdout)
          (!args.exact)).changed = true <;>
          simp [hg, hn, hch, hs, remove_node_modules, remove_lockfiles]
  · cases hc : install_cmd args.manager args.frozen_lock with
    | none =>
        refine ⟨[], ?_, Or.inl rfl, fun _ hne => absurd rfl hne⟩
        by_cases hg : (!args.keep_node_modules && !args.frozen_lock) = true <;>
          by_cases hn : w.nodeModules = true <;>
            by_cases hch : (upgrade_wrangler m
              (latest_version w.registryStdout) (!args.exact)).changed
                = true <;>
              simp [hg, hn, hch, hs, hc, remove_node_modules,
                remove_lockfiles]
    | some cmd =>
        refine ⟨[Event.installed args.manager args.frozen_lock], ?_,
          Or.inr rfl, fun _ _ => rfl⟩
        by_cases hg : (!args.keep_node_modules && !args.frozen_lock) = true <;>
          by_cases hn : w.nodeModules = true <;>
            by_cases hch : (upgrade_wrangler m
              (latest_version w.registryStdout) (!args.exact)).changed
                = true <;>
              simp [hg, hn, hch, hs, hc, remove_node_modules,
                remove_lockfiles]

theorem reset_main_fatal (args : Flags) (w : DepWorld)
    (m : Manifest) (hm : w.manifestFile = some m) :
    (reset_main args w).fatal =
      if args.skip_install then none
      else
        match install_cmd args.manager args.frozen_lock with
        | none => some ("Unsupported package manager: " ++ args.manager)
        | some _ => if w.installOk then none
            else some "install command failed" := by
  simp only [reset_main, hm]
  by_cases hg : (!args.keep_node_modules && !args.frozen_lock) = true <;>
    by_cases hn : w.nodeModules = true <;>
      by_cases hch : (upgrade_wrangler m (latest_version w.registryStdout)
        (!args.exact)).changed = true <;>
        by_cases hs : args.skip_install = true <;>
          cases hc : install_cmd args.manager args.frozen_lock <;>
            simp [hg, hn, hch, hs, hc, remove_node_modules, remove_lockfiles]

/-- When the upgrade reports a change, the wrangler entry of one of the two
dependency sections did change. -/
theorem upgrade_wrangler_changed_section (m : Manifest) (latest : Option String)
    (caret : Bool) (h : (upgrade_wrangler m latest caret).changed = true) :
    ∃ s, (s = "devDependencies" ∨ s = "dependencies") ∧
      alookup (getSection (upgrade_wrangler m latest caret).mem s) "wrangler"
        ≠ alookup (getSection m s) "wrangler" := by
  cases latest with
  | none => exact absurd h (by rw [upgrade_wrangler_none]; simp)
  | some nv =>
      cases h0 : alookup (getSection m "devDependencies") "wrangler" with
      | some v =>
          by_cases hv : v = desiredVersion caret nv
          · subst hv
            rw [upgrade_wrangler_dev_eq m nv caret h0] at h
            exact absurd h (by simp)
          · refine ⟨"devDependencies", Or.inl rfl, ?_⟩
            rw [upgrade_wrangler_dev_ne m nv caret v h0 hv]
            show alookup (getSection (aset _ "devDependencies" _)
              "devDependencies") "wrangler" ≠ _
            rw [getSection_aset_self, alookup_aset_self, h0]
            intro hc
            exact hv (Option.some.inj hc).symm
      | none =>
          cases h1 : alookup (getSection m "dependencies") "wrangler" with
          | some v =>
              by_cases hv : v = desiredVersion caret nv
              · subst hv
                rw [upgrade_wrangler_dep_eq m nv caret h0 h1] at h
                exact absurd h (by simp)
              · refine ⟨"dependencies", Or.inr rfl, ?_⟩
                rw [upgrade_wrangler_dep_ne m nv caret v h0 h1 hv]
                show alookup (getSection (aset _ "dependencies" _)
                  "dependencies") "wrangler" ≠ _
                rw [getSection_aset_self, alookup_aset_self, h1]
                intro hc
                exact hv (Option.some.inj hc).symm
          | none =>
              refine ⟨"devDependencies", Or.inl rfl, ?_⟩
              rw [upgrade_wrangler_absent m nv caret h0 h1]
              show alookup (getSection (aset _ "devDependencies" _)
                "devDependencies") "wrangler" ≠ _
              rw [getSection_aset_self, alookup_aset_self, h0]
              simp

theorem mem_if_singleton {e a : Event} {cond : Bool}
    (h : e ∈ (if cond then [a] else [])) : e = a := by
  cases cond with
  | true => simpa using h
  | false => simp at h

theorem not_mem_if_false {e a : Event} {cond : Bool} (hc : cond = false) :
    e ∉ (if cond then [a] else []) := by
  rw [hc]
  simp

theorem removedNodeModules_not_in_lockfileTrace (names present : List String) :
    Event.removedNodeModules ∉ (removeLockfilesGo names present).2 := by
  intro h
  obtain ⟨n, hn | hn⟩ := removeLockfilesGo_events _ _ _ h <;>
    exact Event.noConfusion hn

theorem savedManifest_not_in_lockfileTrace (names present : List String)
    (m' : Manifest) :
    Event.savedManifest m' ∉ (removeLockfilesGo names present).2 := by
  intro h
  obtain ⟨n, hn | hn⟩ := removeLockfilesGo_events _ _ _ h <;>
    exact Event.noConfusion hn

theorem installed_not_in_lockfileTrace (names present : List String)
    (manager : String) (frozen : Bool) :
    Event.installed manager frozen ∉ (removeLockfilesGo names present).2 := by
  intro h
  obtain ⟨n, hn | hn⟩ := removeLockfilesGo_events _ _ _ h <;>
    exact Event.noConfusion hn

/-! ### The claims -/

/-- C1 (counterexample): for the loaded manifest
`{"dependencies": {"wrangler": "4.0.0"}}` with the registry reporting
`4.2.0` in caret mode, `upgrade_wrangler` reports a change (so the manifest
is persisted), yet the saved manifest contains a section key
`"devDependencies"` that the loaded manifest did not contain — a section is
added beyond the single wrangler version edit. -/
theorem C1_counterexample :
    (upgrade_wrangler [("dependencies", [("wrangler", "4.0.0")])]
        (some "4.2.0") true).changed = true ∧
    alookup (upgrade_wrangler [("dependencies", [("wrangler", "4.0.0")])]
        (some "4.2.0") true).mem "devDependencies" = some [] ∧
    alookup ([("dependencies", [("wrangler", "4.0.0")])] : Manifest)
        "devDependencies" = none :=
  ⟨rfl, rfl, rfl⟩

/-- C1 (amended): after `upgrade_wrangler`, every section other than the two
dependency sections keeps its binding; every dependency entry other than
wrangler keeps its value; no section is removed; any section that appears
is one of the two dependency sections (possibly added empty by the
`setdefault` scan); the wrangler entry changes in at most one section, and
in exactly one when a change is reported (so the manifest is persisted). -/
theorem C1_frame_preserved (m : Manifest) (latest : Option String)
    (caret : Bool) :
    (∀ s, s ≠ "devDependencies" → s ≠ "dependencies" →
      alookup (upgrade_wrangler m latest caret).mem s = alookup m s) ∧
    (∀ s k, k ≠ "wrangler" →
      alookup (getSection (upgrade_wrangler m latest caret).mem s) k
        = alookup (getSection m s) k) ∧
    (∀ s, (alookup m s).isSome →
      (alookup (upgrade_wrangler m latest caret).mem s).isSome) ∧
    (∀ s, (alookup (upgrade_wrangler m latest caret).mem s).isSome →
      (alookup m s).isSome ∨ s = "devDependencies" ∨ s = "dependencies") ∧
    (∀ s1 s2,
      alookup (getSection (upgrade_wrangler m latest caret).mem s1) "wrangler"
          ≠ alookup (getSection m s1) "wrangler" →
      alookup (getSection (upgrade_wrangler m latest caret).mem s2) "wrangler"
          ≠ alookup (getSection m s2) "wrangler" → s1 = s2) ∧
    ((upgrade_wrangler m latest caret).changed = true →
      ∃ s, (s = "devDependencies" ∨ s = "dependencies") ∧
        alookup (getSection (upgrade_wrangler m latest caret).mem s)
          "wrangler" ≠ alookup (getSection m s) "wrangler") := by
  obtain ⟨hA, hB, hC, hD, hE⟩ := upgrade_wrangler_frame m latest caret
  exact ⟨hA, hB, hC, hD, hE, upgrade_wrangler_changed_section m latest caret⟩

/-- C1 witness: the amended frame theorem applied at a concrete manifest,
checking that an unrelated section keeps its binding. -/
theorem C1_frame_preserved_witness :
    alookup (upgrade_wrangler
        [("name", [("x", "1")]), ("dependencies", [("wrangler", "4.0.0")])]
        (some "4.2.0") true).mem "name" = some [("x", "1")] := by
  have h := (C1_frame_preserved
    [("name", [("x", "1")]), ("dependencies", [("wrangler", "4.0.0")])]
    (some "4.2.0") true).1 "name" (by decide) (by decide)
  rw [h]
  rfl

/-- C2 (counterexample): when the `public` directory already exists but
`public/index.html` does not, `ensure_public_assets` returns at once and
the index file still does not exist afterwards, contrary to the claim that
both exist after every run. -/
theorem C2_counterexample :
    (ensure_public_assets ⟨true, none⟩).publicDirExists = true ∧
    (ensure_public_assets ⟨true, none⟩).indexFileContent = none :=
  ⟨rfl, rfl⟩

/-- C2 (amended): after `ensure_public_assets` the directory exists; the
index file exists afterwards whenever the directory was initially absent
(and whenever the file already existed); existing index-file content is
never overwritten; and the step is idempotent. -/
theorem C2_ensure_public_assets (fs : FS) :
    (ensure_public_assets fs).publicDirExists = true ∧
    (fs.publicDirExists = false →
      (ensure_public_assets fs).indexFileContent.isSome) ∧
    (∀ c, fs.indexFileContent = some c →
      (ensure_public_assets fs).indexFileContent = some c) ∧
    ensure_public_assets (ensure_public_assets fs) = ensure_public_assets fs
    := by
  obtain ⟨dir, content⟩ := fs
  cases dir <;> cases content <;>
    simp [ensure_public_assets]

/-- C2 witness: the amended theorem applied to the state with no `public`
directory, discharging the initially-absent hypothesis. -/
theorem C2_ensure_public_assets_witness :
    (ensure_public_assets ⟨false, none⟩).indexFileContent.isSome :=
  (C2_ensure_public_assets ⟨false, none⟩).2.1 rfl

/-- C3 (counterexample): with `--frozen-lock` set and `--keep-node-modules`
not set, `main` does not delete an existing `node_modules` directory,
refuting that deletion is suppressed exactly by the keep-cache flag. -/
theorem C3_counterexample :
    (Flags.mk "npm" true false false true).keep_node_modules = false ∧
    (DepWorld.mk true [] (some []) none true).nodeModules = true ∧
    (reset_main (Flags.mk "npm" true false false true)
        (DepWorld.mk true [] (some []) none true)).world.nodeModules
      = true :=
  ⟨rfl, rfl, rfl⟩

/-- C3 (amended): step 2 deletes `node_modules` (when present, and as the
first recorded action, before lockfile removal) exactly when neither
`--keep-node-modules` nor `--frozen-lock` is set; when either flag is set
the directory is left untouched and no removal is recorded. -/
theorem C3_node_modules_gate (args : Flags) (w : DepWorld) (m : Manifest)
    (hm : w.manifestFile = some m) :
    ((args.keep_node_modules || args.frozen_lock) = true →
      (reset_main args w).world.nodeModules = w.nodeModules ∧
      Event.removedNodeModules ∉ (reset_main args w).trace) ∧
    ((args.keep_node_modules || args.frozen_lock) = false →
      (reset_main args w).world.nodeModules = false ∧
      (w.nodeModules = true →
        (reset_main args w).trace.head? = some Event.removedNodeModules)) := by
  obtain ⟨tI, htr, htI, _⟩ := reset_main_trace args w m hm
  have hnm := reset_main_world_nodeModules args w m hm
  constructor
  · intro hkf
    have hg : (!args.keep_node_modules && !args.frozen_lock) = false := by
      rcases Bool.or_eq_true_iff.mp hkf with h | h <;> simp [h]
    constructor
    · rw [hnm, hg]
      simp
    · intro hmem
      have hc1 : (!args.keep_node_modules && !args.frozen_lock
          && w.nodeModules) = false := by
        rw [hg, Bool.false_and]
      rw [htr] at hmem
      rcases List.mem_append.mp hmem with h123 | hI
      · rcases List.mem_append.mp h123 with h12 | h3
        · rcases List.mem_append.mp h12 with h1 | h2
          · exact not_mem_if_false hc1 h1
          · exact removedNodeModules_not_in_lockfileTrace _ _ h2
        · exact Event.noConfusion (mem_if_singleton h3)
      · rcases htI with rfl | rfl
        · simp at hI
        · exact Event.noConfusion (List.mem_singleton.mp hI)
  · intro hkf
    have hk : args.keep_node_modules = false := by
      cases h : args.keep_node_modules
      · rfl
      · rw [h] at hkf; simp at hkf
    have hf : args.frozen_lock = false := by
      cases h : args.frozen_lock
      · rfl
      · rw [h] at hkf; simp at hkf
    have hg : (!args.keep_node_modules && !args.frozen_lock) = true := by
      simp [hk, hf]
    constructor
    · rw [hnm, hg]
      simp
    · intro hn
      rw [htr, hg, hn]
      rfl

/-- C3 witness: the amended theorem applied with `--keep-node-modules` set,
showing the directory survives the run. -/
theorem C3_node_modules_gate_witness :
    (reset_main (Flags.mk "npm" true true false false)
        (DepWorld.mk true [] (some []) none true)).world.nodeModules
      = (DepWorld.mk true [] (some []) none true).nodeModules :=
  ((C3_node_modules_gate (Flags.mk "npm" true true false false)
      (DepWorld.mk true [] (some []) none true) [] rfl).1 (by decide)).1

/-- C4: for the manifest `{"devDependencies": {"wrangler": "4.0.0"}}`, with
the registry reporting `4.2.0` and default flags (caret mode), the repair
procedure rewrites the manifest file to
`{"devDependencies": {"wrangler": "^4.2.0"}}`. -/
theorem C4_scenario :
    (reset_main (Flags.mk "npm" false false false false)
        (DepWorld.mk true []
          (some [("devDependencies", [("wrangler", "4.0.0")])])
          (some "4.2.0") true)).world.manifestFile
      = some [("devDependencies", [("wrangler", "^4.2.0")])] ∧
    Event.savedManifest [("devDependencies", [("wrangler", "^4.2.0")])]
      ∈ (reset_main (Flags.mk "npm" false false false false)
        (DepWorld.mk true []
          (some [("devDependencies", [("wrangler", "4.0.0")])])
          (some "4.2.0") true)).trace :=
  ⟨rfl, by decide⟩

/-- C5: when the wrangler entry in the first priority section where it
appears already equals the computed target version, `upgrade_wrangler`
reports no change, the manifest file on disk keeps its content, and no
save of the manifest is recorded. -/
theorem C5_no_change_no_write (args : Flags) (w : DepWorld) (m : Manifest)
    (v : String) (hm : w.manifestFile = some m)
    (hv : latest_version w.registryStdout = some v)
    (hfound :
      alookup (getSection m "devDependencies") "wrangler"
          = some (desiredVersion (!args.exact) v) ∨
      (alookup (getSection m "devDependencies") "wrangler" = none ∧
        alookup (getSection m "dependencies") "wrangler"
          = some (desiredVersion (!args.exact) v))) :
    (upgrade_wrangler m (latest_version w.registryStdout)
        (!args.exact)).changed = false ∧
    (reset_main args w).world.manifestFile = some m ∧
    (∀ m', Event.savedManifest m' ∉ (reset_main args w).trace) := by
  have hch : (upgrade_wrangler m (latest_version w.registryStdout)
      (!args.exact)).changed = false := by
    rw [hv]
    rcases hfound with h | ⟨h0, h1⟩
    · rw [upgrade_wrangler_dev_eq m v (!args.exact) h]
    · rw [upgrade_wrangler_dep_eq m v (!args.exact) h0 h1]
  refine ⟨hch, ?_, ?_⟩
  · rw [reset_main_world_manifestFile args w m hm, hch]
    simp
  · intro m' hmem
    obtain ⟨tI, htr, htI, _⟩ := reset_main_trace args w m hm
    rw [htr] at hmem
    rcases List.mem_append.mp hmem with h123 | hI
    · rcases List.mem_append.mp h123 with h12 | h3
      · rcases List.mem_append.mp h12 with h1 | h2
        · exact Event.noConfusion (mem_if_singleton h1)
        · exact savedManifest_not_in_lockfileTrace _ _ _ h2
      · rw [hch] at h3
        simp at h3
    · rcases htI with rfl | rfl
      · simp at hI
      · exact Event.noConfusion (List.mem_singleton.mp hI)

/-- C5 witness: a manifest already holding `^4.2.0` in `devDependencies`
with the registry reporting `4.2.0` is not rewritten. -/
theorem C5_no_change_no_write_witness :
    (reset_main (Flags.mk "npm" true false false false)
        (DepWorld.mk false []
          (some [("devDependencies", [("wrangler", "^4.2.0")])])
          (some "4.2.0") true)).world.manifestFile
      = some [("devDependencies", [("wrangler", "^4.2.0")])] :=
  (C5_no_change_no_write (Flags.mk "npm" true false false false)
    (DepWorld.mk false []
      (some [("devDependencies", [("wrangler", "^4.2.0")])])
      (some "4.2.0") true)
    [("devDependencies", [("wrangler", "^4.2.0")])] "4.2.0"
    rfl rfl (Or.inl (by decide))).2.1

/-- C6: the version string placed in the manifest for the wrangler entry is
exactly the registry version when `--exact` is given, and exactly the
caret-prefixed registry version otherwise. -/
theorem C6_desired_version (m : Manifest) (nv : String) (exact : Bool) :
    desiredVersion (!exact) nv = (if exact then nv else "^" ++ nv) ∧
    ∃ sec, (sec = "devDependencies" ∨ sec = "dependencies") ∧
      alookup (getSection (upgrade_wrangler m (some nv) (!exact)).mem sec)
        "wrangler" = some (desiredVersion (!exact) nv) := by
  constructor
  · cases exact <;> rfl
  · cases h0 : alookup (getSection m "devDependencies") "wrangler" with
    | some v =>
        by_cases hv : v = desiredVersion (!exact) nv
        · subst hv
          refine ⟨"devDependencies", Or.inl rfl, ?_⟩
          rw [upgrade_wrangler_dev_eq m nv (!exact) h0]
          show alookup (getSection (setdefaultSection m "devDependencies")
            "devDependencies") "wrangler" = _
          rw [getSection_setdefaultSection_self]
          exact h0
        · refine ⟨"devDependencies", Or.inl rfl, ?_⟩
          rw [upgrade_wrangler_dev_ne m nv (!exact) v h0 hv]
          show alookup (getSection (aset _ "devDependencies" _)
            "devDependencies") "wrangler" = _
          rw [getSection_aset_self, alookup_aset_self]
    | none =>
        cases h1 : alookup (getSection m "dependencies") "wrangler" with
        | some v =>
            by_cases hv : v = desiredVersion (!exact) nv
            · subst hv
              refine ⟨"dependencies", Or.inr rfl, ?_⟩
              rw [upgrade_wrangler_dep_eq m nv (!exact) h0 h1]
              show alookup (getSection (setdefaultSection (setdefaultSection m
                "devDependencies") "dependencies") "dependencies")
                "wrangler" = _
              rw [getSection_setdefault2]
              exact h1
            · refine ⟨"dependencies", Or.inr rfl, ?_⟩
              rw [upgrade_wrangler_dep_ne m nv (!exact) v h0 h1 hv]
              show alookup (getSection (aset _ "dependencies" _)
                "dependencies") "wrangler" = _
              rw [getSection_aset_self, alookup_aset_self]
        | none =>
            refine ⟨"devDependencies", Or.inl rfl, ?_⟩
            rw [upgrade_wrangler_absent m nv (!exact) h0 h1]
            show alookup (getSection (aset _ "devDependencies" _)
              "devDependencies") "wrangler" = _
            rw [getSection_aset_self, alookup_aset_self]

/-- C7: whenever the status check after the staging step reports a
non-clean working tree, the orchestrator never attempts the push, never
queries or creates a pull request, prints the skip message, and exits with
code 0. -/
theorem C7_not_clean_skips_push (w : GitWorld)
    (hb : w.bunOnPath = true) (hr : w.resetExit = none)
    (ht : w.testExit = none) (hst : w.stageExit = none)
    (hcl : working_tree_clean w = false) :
    (∀ b, OEvent.pushAttempted b ∉ (finalize_main w).events) ∧
    (∀ b, OEvent.prViewQueried b ∉ (finalize_main w).events) ∧
    (∀ b base, OEvent.prCreateAttempted b base ∉ (finalize_main w).events) ∧
    OEvent.printedSkipPush ∈ (finalize_main w).events ∧
    (finalize_main w).exitCode = 0 := by
  have hfm : finalize_main w =
      ⟨[OEvent.ranStep "Reset/install dependencies",
        OEvent.ranStep "Run Vitest smoke tests",
        OEvent.ranStep "Stage resolved files",
        OEvent.printedSkipPush], 0, ensure_public_assets w.fs⟩ := by
    simp [finalize_main, hb, hr, ht, hst, hcl]
  rw [hfm]
  refine ⟨?_, ?_, ?_, by simp, rfl⟩
  · intro b hmem
    simp at hmem
  · intro b hmem
    simp at hmem
  · intro b base hmem
    simp at hmem

/-- C7 witness: a run with all steps succeeding and a dirty status output
skips push and exits 0. -/
theorem C7_not_clean_skips_push_witness :
    (finalize_main (GitWorld.mk true none none none "feature" " M a.txt"
        true true true true (some "main") (FS.mk true none))).exitCode
      = 0 :=
  (C7_not_clean_skips_push (GitWorld.mk true none none none "feature"
      " M a.txt" true true true true (some "main") (FS.mk true none))
    rfl rfl rfl rfl (by decide)).2.2.2.2

/-- C8: a failed registry lookup is non-fatal — the upgrade is skipped, the
manifest file is never written, the install step is still reached, and (as
long as the install itself succeeds) the run ends without a fatal exit. -/
theorem C8_registry_failure_nonfatal (args : Flags) (w : DepWorld)
    (m : Manifest) (hm : w.manifestFile = some m)
    (hl : latest_version w.registryStdout = none)
    (hsk : args.skip_install = false)
    (hmgr : args.manager = "npm" ∨ args.manager = "pnpm"
      ∨ args.manager = "bun") :
    (upgrade_wrangler m (latest_version w.registryStdout)
        (!args.exact)).changed = false ∧
    (reset_main args w).world.manifestFile = some m ∧
    (∀ m', Event.savedManifest m' ∉ (reset_main args w).trace) ∧
    Event.installed args.manager args.frozen_lock
      ∈ (reset_main args w).trace ∧
    (w.installOk = true → (reset_main args w).fatal = none) := by
  have hch : (upgrade_wrangler m (latest_version w.registryStdout)
      (!args.exact)).changed = false := by
    rw [hl, upgrade_wrangler_none]
  have hcmd : install_cmd args.manager args.frozen_lock ≠ none := by
    rcases hmgr with h | h | h <;> rw [h] <;> simp [install_cmd]
  obtain ⟨tI, htr, htI, htI2⟩ := reset_main_trace args w m hm
  have htIeq : tI = [Event.installed args.manager args.frozen_lock] :=
    htI2 hsk hcmd
  refine ⟨hch, ?_, ?_, ?_, ?_⟩
  · rw [reset_main_world_manifestFile args w m hm, hch]
    simp
  · intro m' hmem
    rw [htr] at hmem
    rcases List.mem_append.mp hmem with h123 | hI
    · rcases List.mem_append.mp h123 with h12 | h3
      · rcases List.mem_append.mp h12 with h1 | h2
        · exact Event.noConfusion (mem_if_singleton h1)
        · exact savedManifest_not_in_lockfileTrace _ _ _ h2
      · rw [hch] at h3
        simp at h3
    · rw [htIeq] at hI
      exact Event.noConfusion (List.mem_singleton.mp hI)
  · rw [htr, htIeq]
    simp
  · intro hio
    rw [reset_main_fatal args w m hm]
    cases hc : install_cmd args.manager args.frozen_lock with
    | none => exact absurd hc hcmd
    | some cmd => simp [hsk, hc, hio]

/-- C8 witness: with npm missing (no registry stdout) the run still reaches
the bun install step. -/
theorem C8_registry_failure_nonfatal_witness :
    Event.installed "bun" false
      ∈ (reset_main (Flags.mk "bun" false false false false)
        (DepWorld.mk false [] (some []) none true)).trace :=
  (C8_registry_failure_nonfatal (Flags.mk "bun" false false false false)
    (DepWorld.mk false [] (some []) none true) [] rfl rfl rfl
    (Or.inr (Or.inr rfl))).2.2.2.1

/-- C9: for any lockfile of the selected manager's fixed set, a missing
file is reported as skipped (never as removed) and the filesystem is
unchanged at that path, while an existing file is removed. -/
theorem C9_lockfile_removal (manager name : String) (present : List String)
    (hn : name ∈ detect_lockfiles manager) (hnd : present.Nodup) :
    (name ∉ present →
      Event.skippedLockfile name ∈ (remove_lockfiles manager present).2 ∧
      Event.removedLockfile name ∉ (remove_lockfiles manager present).2 ∧
      (name ∈ (remove_lockfiles manager present).1 ↔ name ∈ present)) ∧
    (name ∈ present →
      Event.removedLockfile name ∈ (remove_lockfiles manager present).2 ∧
      name ∉ (remove_lockfiles manager present).1) := by
  constructor
  · intro hp
    obtain ⟨h1, h2, h3⟩ := removeLockfilesGo_missing
      (detect_lockfiles manager) present name hn hp
    exact ⟨h1, h2, fun hx => absurd hx h3, fun hx => absurd hx hp⟩
  · intro hp
    exact removeLockfilesGo_present (detect_lockfiles manager) name hn
      present hnd hp

/-- C9 witness: with no lockfiles present, deleting npm's lockfile set
reports `package-lock.json` as skipped. -/
theorem C9_lockfile_removal_witness :
    Event.skippedLockfile "package-lock.json"
      ∈ (remove_lockfiles "npm" []).2 :=
  ((C9_lockfile_removal "npm" "package-lock.json" [] (by decide)
    List.nodup_nil).1 (by decide)).1

/-- C10: the fixed lockfile table gives npm `{package-lock.json}`, a subset
of both pnpm's and bun's sets, so selecting pnpm or bun also deletes
`package-lock.json` when present. -/
theorem C10_npm_lockfile_subset :
    (∀ x, x ∈ detect_lockfiles "npm" → x ∈ detect_lockfiles "pnpm") ∧
    (∀ x, x ∈ detect_lockfiles "npm" → x ∈ detect_lockfiles "bun") ∧
    "package-lock.json" ∈ detect_lockfiles "npm" ∧
    "package-lock.json" ∈ detect_lockfiles "pnpm" ∧
    "package-lock.json" ∈ detect_lockfiles "bun" ∧
    (∀ present : List String, "package-lock.json" ∈ present →
      Event.removedLockfile "package-lock.json"
        ∈ (remove_lockfiles "pnpm" present).2 ∧
      Event.removedLockfile "package-lock.json"
        ∈ (remove_lockfiles "bun" present).2) := by
  refine ⟨?_, ?_, by decide, by decide, by decide, ?_⟩
  · intro x hx
    have h : detect_lockfiles "npm" = ["package-lock.json"] := rfl
    rw [h] at hx
    have hx' : x = "package-lock.json" := List.mem_singleton.mp hx
    subst hx'
    decide
  · intro x hx
    have h : detect_lockfiles "npm" = ["package-lock.json"] := rfl
    rw [h] at hx
    have hx' : x = "package-lock.json" := List.mem_singleton.mp hx
    subst hx'
    decide
  · intro present hp
    constructor
    · show Event.removedLockfile "package-lock.json"
        ∈ (removeLockfilesGo ["package-lock.json", "pnpm-lock.yaml"]
          present).2
      simp only [removeLockfilesGo, if_pos hp]
      exact List.mem_cons_self _ _
    · show Event.removedLockfile "package-lock.json"
        ∈ (removeLockfilesGo ["package-lock.json", "bun.lockb", "bun.lock"]
          present).2
      simp only [removeLockfilesGo, if_pos hp]
      exact List.mem_cons_self _ _

/-- C10 witness: deleting pnpm's set with `package-lock.json` present
removes it. -/
theorem C10_npm_lockfile_subset_witness :
    Event.removedLockfile "package-lock.json"
      ∈ (remove_lockfiles "pnpm" ["package-lock.json"]).2 :=
  (C10_npm_lockfile_subset.2.2.2.2.2 ["package-lock.json"] (by decide)).1

end WaterCooler
